import Mathlib

/-!
Verification of the KiCad SPECCTRA DSN lexer (`include/dsnlexer.h`).

The data model is a shallow embedding of class `DSNLEXER`.  Inline member
functions (`isStringTerminator`, `SetStringDelimiter`, `SetSpaceInQuotedTokens`,
`SetCommentsAreTokens`, `CurOffset`, `readLine`) are translated directly from
the header.  Members that are only declared in the header (`NextTok`,
`PopReader`, `PushReader`, `findToken`, `readLineOrCmt`, the constructors) have
their bodies modelled from the design spec, as indicated on each definition.

Lines supplied by a `LINE_READER` include their trailing newline character, and
an empty line is returned as "\n" with length 1; a returned length of 0 signals
end of source.  Cursor pointers (`next`, `limit`) into the reader-owned line
buffer are embedded as natural-number indices into the current line.
-/

namespace Dsn

/-- `DSN_SYNTAX_T` enumeration values, from `dsnlexer.h`. -/
def DSN_NONE : Int := -11

/-- Comment token value `DSN_COMMENT` from the `DSN_SYNTAX_T` enum. -/
def DSN_COMMENT : Int := -10

/-- Dash token value `DSN_DASH` from the `DSN_SYNTAX_T` enum. -/
def DSN_DASH : Int := -7

/-- Symbol token value `DSN_SYMBOL` from the `DSN_SYNTAX_T` enum. -/
def DSN_SYMBOL : Int := -6

/-- Number token value `DSN_NUMBER` from the `DSN_SYNTAX_T` enum. -/
def DSN_NUMBER : Int := -5

/-- Right bracket token value `DSN_RIGHT` from the `DSN_SYNTAX_T` enum. -/
def DSN_RIGHT : Int := -4

/-- Left bracket token value `DSN_LEFT` from the `DSN_SYNTAX_T` enum. -/
def DSN_LEFT : Int := -3

/-- Quoted string token value `DSN_STRING` from the `DSN_SYNTAX_T` enum. -/
def DSN_STRING : Int := -2

/-- End of file token value `DSN_EOF` from the `DSN_SYNTAX_T` enum. -/
def DSN_EOF : Int := -1

/-- Blank characters, the C `isspace` set used when skipping whitespace. -/
def isBlank (c : Char) : Bool :=
  c = ' ' || c = '\t' || c = '\n' || c = '\x0d' || c = '\x0b' || c = '\x0c'

/-- Struct `KEYWORD`: a keyword spelling and its unique integer token. -/
structure KEYWORD where
  name : List Char
  token : Int
deriving DecidableEq, Repr

/-- A `LINE_READER` (external collaborator, `richio.h`): supplies one line of
text at a time, each including its trailing newline, together with a line
number and a source name.  `pending` holds the lines not yet read and
`curLine` is the reader-owned buffer of the line read most recently. -/
structure LINE_READER where
  pending : List (List Char)
  lineNum : Nat
  source : String
  curLine : List Char
deriving DecidableEq, Repr

/-- A reader that has just read line `l`, with `rest` still pending. -/
def advReader (r : LINE_READER) (l : List Char) (rest : List (List Char)) :
    LINE_READER :=
  { r with pending := rest, lineNum := r.lineNum + 1, curLine := l }

/-- `LINE_READER::ReadLine`: reads the next line into the reader's buffer and
returns its length; a returned length of zero signals end of source. -/
def ReadLine (r : LINE_READER) : Nat × LINE_READER :=
  match r.pending with
  | [] => (0, { r with curLine := [] })
  | l :: rest => (l.length, advReader r l rest)

/-- The state of class `DSNLEXER` from `dsnlexer.h`.  The reader stack is a
list whose head is the top (active) reader, standing for `readerStack`
together with the `reader` pointer to its top.  `next` and `limit` are the
cursor and line-end pointers embedded as indices into the active reader's
current line buffer. -/
structure DSNLEXER where
  readerStack : List LINE_READER
  next : Nat
  limit : Nat
  stringDelimiter : Char
  space_in_quoted_tokens : Bool
  commentsAreTokens : Bool
  prevTok : Int
  curOffset : Nat
  curTok : Int
  curText : List Char
  keywords : List KEYWORD
deriving DecidableEq, Repr

/-- An inert reader used as the default value for `List.headD`. -/
def emptyReader : LINE_READER :=
  { pending := [], lineNum := 0, source := "", curLine := [] }

/-- The active (top) reader of the stack, i.e. the `reader` member. -/
def activeReader (st : DSNLEXER) : LINE_READER :=
  st.readerStack.headD emptyReader

/-- `start()`: the active reader's current line buffer. -/
def curLineOf (st : DSNLEXER) : List Char :=
  (activeReader st).curLine

/-- The characters of the current line from the cursor `next` to `limit`. -/
def curRest (st : DSNLEXER) : List Char :=
  (curLineOf st).drop st.next

/-- `DSNLEXER::isStringTerminator`, translated from the header. -/
def isStringTerminator (st : DSNLEXER) (cc : Char) : Bool :=
  if !st.space_in_quoted_tokens && cc = ' ' then true
  else if cc = st.stringDelimiter then true
  else false

/-- `DSNLEXER::SetStringDelimiter`: stores the new delimiter and returns the
old one, translated from the header. -/
def SetStringDelimiter (st : DSNLEXER) (aStringDelimiter : Char) : Char × DSNLEXER :=
  (st.stringDelimiter, { st with stringDelimiter := aStringDelimiter })

/-- `DSNLEXER::SetSpaceInQuotedTokens`: stores the new flag and returns the
old one, translated from the header. -/
def SetSpaceInQuotedTokens (st : DSNLEXER) (val : Bool) : Bool × DSNLEXER :=
  (st.space_in_quoted_tokens, { st with space_in_quoted_tokens := val })

/-- `DSNLEXER::SetCommentsAreTokens`: stores the new flag and returns the
old one, translated from the header. -/
def SetCommentsAreTokens (st : DSNLEXER) (val : Bool) : Bool × DSNLEXER :=
  (st.commentsAreTokens, { st with commentsAreTokens := val })

/-- `DSNLEXER::CurOffset`: the char offset within the current line using a
1-based index, translated from the header (`return curOffset + 1;`). -/
def CurOffset (st : DSNLEXER) : Nat :=
  st.curOffset + 1

/-- `DSNLEXER::readLine`, translated from the header: reads a line from the
active reader and resets `next` to the start of the fresh buffer and `limit`
to `next + len`. -/
def readLine (st : DSNLEXER) : Nat × DSNLEXER :=
  match st.readerStack with
  | [] => (0, { st with next := 0, limit := 0 })
  | r :: rest =>
      let p := ReadLine r
      (p.1, { st with readerStack := p.2 :: rest, next := 0, limit := p.1 })

/-- Modelled from the spec: a lowercase fold used for the case-insensitive
keyword comparison performed by `DSNLEXER::findToken`. -/
def lowered (s : List Char) : List Char :=
  s.map Char.toLower

/-- Modelled from the spec (`DSNLEXER::findToken` is only declared in the
header): case-insensitive comparison of the argument against every entry's
name, returning the associated id on a match and -1 when the string is not a
recognized token. -/
def findToken (kws : List KEYWORD) (tok : List Char) : Int :=
  match kws with
  | [] => -1
  | k :: rest => if lowered k.name = lowered tok then k.token else findToken rest tok

/-- Modelled from the spec (`DSNLEXER::readLineOrCmt` is only declared in the
header): reads a line and returns a positive line length, zero at end of
file, or `DSN_COMMENT` if the line is a comment.  The DSN line-comment marker
is the character '#'; a line is a comment line when its first character is
the marker. -/
def readLineOrCmt (st : DSNLEXER) : Int × DSNLEXER :=
  let p := readLine st
  if p.1 ≠ 0 && (curLineOf p.2).head? = some '#' then (DSN_COMMENT, p.2)
  else ((p.1 : Int), p.2)

/-- Modelled from the spec: step 2 of `next_token`, skipping leading blank
characters without emitting a token. -/
def skipBlanks (st : DSNLEXER) : DSNLEXER :=
  { st with next := st.next + ((curRest st).takeWhile isBlank).length }

/-- Modelled from the spec: whether the text at the cursor can start a numeric
literal — a digit, or one of '-', '+', '.' immediately followed by a digit. -/
def startsNumAt (rest : List Char) : Bool :=
  match rest with
  | [] => false
  | c :: t =>
      c.isDigit ||
        ((c = '-' || c = '+' || c = '.') &&
          (match t with | d :: _ => d.isDigit | [] => false))

/-- Modelled from the spec: characters that end a symbol or number run —
blanks, brackets and the configured string delimiter. -/
def stopsRun (st : DSNLEXER) (c : Char) : Bool :=
  isBlank c || c = '(' || c = ')' || c = st.stringDelimiter

/-- Strips one optional leading sign character from a candidate number. -/
def dropSign : List Char → List Char
  | [] => []
  | c :: r => if c = '+' || c = '-' then r else c :: r

/-- Modelled from the spec: an optional exponent — empty, or an exponent
marker with its own optional sign followed by at least one digit. -/
def expOk : List Char → Bool
  | [] => true
  | e :: r =>
      if e = 'e' || e = 'E' then
        let r2 := dropSign r
        decide (1 ≤ (r2.takeWhile Char.isDigit).length) &&
          (r2.dropWhile Char.isDigit).isEmpty
      else false

/-- Modelled from the spec: a syntactically complete numeric literal —
optional leading sign, digits with at most one '.', at least one digit, and
an optional exponent with its own optional sign. -/
def isCompleteNumber (cs : List Char) : Bool :=
  let m := dropSign cs
  let d1 := m.takeWhile Char.isDigit
  let r1 := m.dropWhile Char.isDigit
  match r1 with
  | '.' :: r2 =>
      let d2 := r2.takeWhile Char.isDigit
      let r3 := r2.dropWhile Char.isDigit
      decide (1 ≤ d1.length + d2.length) && expOk r3
  | _ => decide (1 ≤ d1.length) && expOk r1

/-- Records a produced token: its column offset, kind, text and the new
cursor position. -/
def setTok (st : DSNLEXER) (off : Nat) (tok : Int) (text : List Char)
    (newNext : Nat) : DSNLEXER :=
  { st with curOffset := off, curTok := tok, curText := text, next := newNext }

/-- Modelled from the spec: step 3 of `next_token`, classifying the first
non-blank character at the cursor.  Brackets are single-character tokens; the
configured string delimiter opens a quoted string read to the next
terminator (`isStringTerminator`), exclusive, closing at end of line when no
terminator occurs; '-' not immediately followed by a digit is a dash
consuming one character; a run that can start a numeric literal and forms a
syntactically complete number is a number; any other run of characters not
ending the run is a symbol. -/
def scanTok (st : DSNLEXER) : DSNLEXER :=
  match curRest st with
  | [] => st
  | c :: t =>
      if c = '(' then setTok st st.next DSN_LEFT [c] (st.next + 1)
      else if c = ')' then setTok st st.next DSN_RIGHT [c] (st.next + 1)
      else if c = st.stringDelimiter then
        let body := t.takeWhile (fun x => !isStringTerminator st x)
        let after := t.dropWhile (fun x => !isStringTerminator st x)
        setTok st st.next DSN_STRING body
          (st.next + 1 + body.length + (if after.isEmpty then 0 else 1))
      else if c = '-' && !startsNumAt (c :: t) then
        setTok st st.next DSN_DASH [c] (st.next + 1)
      else
        let run := (c :: t).takeWhile (fun x => !stopsRun st x)
        if startsNumAt (c :: t) && isCompleteNumber run then
          setTok st st.next DSN_NUMBER run (st.next + run.length)
        else
          setTok st st.next DSN_SYMBOL run (st.next + run.length)

/-- Modelled from the spec: the result of `next_token` when the line pull
signals end of source.  The spec defines the `DSN_EOF` sentinel only when no
lower frame remains on the reader stack and says the lexer does not auto-pop;
when lower frames remain the model returns the placeholder `DSN_NONE` and
leaves the stack untouched, awaiting an explicit `PopReader`. -/
def endTok (st : DSNLEXER) : DSNLEXER :=
  { st with curTok := if st.readerStack.length ≤ 1 then DSN_EOF else DSN_NONE }

/-- Modelled from the spec: the `next_token` loop.  The fuel argument bounds
the number of line pulls; each recursive call follows a successful pull, so
the number of pending lines plus one is always sufficient fuel. -/
def nextTokLoop : Nat → DSNLEXER → DSNLEXER
  | 0, st =>
      let st1 := skipBlanks st
      if st1.next < st1.limit then scanTok st1 else endTok st1
  | fuel + 1, st =>
      let st1 := skipBlanks st
      if st1.next < st1.limit then scanTok st1
      else
        let p := readLineOrCmt st1
        if p.1 = 0 then endTok p.2
        else if p.1 = DSN_COMMENT then
          if p.2.commentsAreTokens then
            { p.2 with curTok := DSN_COMMENT, curText := curLineOf p.2,
                       curOffset := 0, next := p.2.limit }
          else nextTokLoop fuel { p.2 with next := p.2.limit }
        else nextTokLoop fuel p.2

/-- Modelled from the spec (`DSNLEXER::NextTok` is only declared in the
header): saves the previous token kind, then pulls lines as needed, skips
blanks, and classifies the token at the cursor. -/
def NextTok (st : DSNLEXER) : DSNLEXER :=
  nextTokLoop ((activeReader st).pending.length + 1) { st with prevTok := st.curTok }

/-- Modelled from the spec (`DSNLEXER::PushReader` is only declared in the
header): pushes a reader onto the stack and makes it the active source;
always succeeds; reading resumes on a fresh line of the new source. -/
def PushReader (st : DSNLEXER) (aLineReader : LINE_READER) : DSNLEXER :=
  { st with readerStack := aLineReader :: st.readerStack, next := 0, limit := 0 }

/-- Modelled from the spec (`DSNLEXER::PopReader` is only declared in the
header): deletes the top reader and makes the previous one active again,
returning true; when fewer than two readers are on the stack it fails,
returns false and performs no change.  After a successful pop reading starts
from a new line of the now-active reader. -/
def PopReader (st : DSNLEXER) : Bool × DSNLEXER :=
  match st.readerStack with
  | _top :: b :: rest =>
      (true, { st with readerStack := b :: rest, next := 0, limit := 0 })
  | _ => (false, st)

/-- Modelled from the spec: construction from an in-memory text buffer (the
clipboard constructor), with the default configuration — string delimiter
'"', no space in quoted tokens, comments not returned as tokens. -/
def mkLexer (lines : List (List Char)) (kws : List KEYWORD) : DSNLEXER :=
  { readerStack := [{ pending := lines, lineNum := 0, source := "clipboard",
                      curLine := [] }],
    next := 0, limit := 0, stringDelimiter := '"',
    space_in_quoted_tokens := false, commentsAreTokens := false,
    prevTok := DSN_NONE, curOffset := 0, curTok := DSN_NONE, curText := [],
    keywords := kws }

/-- An externally invokable lexer operation, for stating stack invariants
over arbitrary call sequences. -/
inductive LexOp where
  | push : LINE_READER → LexOp
  | pop : LexOp
  | tok : LexOp
deriving Repr

/-- Applies one lexer operation to a state. -/
def applyOp (st : DSNLEXER) : LexOp → DSNLEXER
  | .push lr => PushReader st lr
  | .pop => (PopReader st).2
  | .tok => NextTok st

/-- Applies a sequence of lexer operations from left to right. -/
def applyOps (st : DSNLEXER) (ops : List LexOp) : DSNLEXER :=
  ops.foldl applyOp st

/-- A lexer over the given input lines with the given string delimiter and
space-in-quotes configuration, as produced by the clipboard constructor
followed by the two configuration setters. -/
def cfgLexer (d : Char) (sp : Bool) (lines : List (List Char)) : DSNLEXER :=
  (SetSpaceInQuotedTokens (SetStringDelimiter (mkLexer lines []) d).2 sp).2

section Helpers

lemma takeWhile_all_append (p : Char → Bool) (xs : List Char) (y : Char)
    (r : List Char) (h : ∀ c ∈ xs, p c = true) (hy : p y = false) :
    (xs ++ y :: r).takeWhile p = xs := by
  rw [List.takeWhile_append_of_pos h, List.takeWhile_cons_of_neg (by simp [hy]),
    List.append_nil]

lemma dropWhile_all_append (p : Char → Bool) (xs : List Char) (y : Char)
    (r : List Char) (h : ∀ c ∈ xs, p c = true) (hy : p y = false) :
    (xs ++ y :: r).dropWhile p = y :: r := by
  rw [List.dropWhile_append_of_pos h, List.dropWhile_cons_of_neg (by simp [hy])]

lemma takeWhile_all (p : Char → Bool) (xs : List Char) :
    (∀ c ∈ xs, p c = true) → xs.takeWhile p = xs := by
  induction xs with
  | nil => intro _; rfl
  | cons a t ih =>
      intro h
      rw [List.takeWhile_cons_of_pos (h a (by simp)),
        ih fun c hc => h c (by simp [hc])]

lemma isStringTerminator_eq (st : DSNLEXER) (cc : Char) :
    isStringTerminator st cc =
      ((!st.space_in_quoted_tokens && cc = ' ') || cc = st.stringDelimiter) := by
  unfold isStringTerminator
  split_ifs with h1 h2 <;> simp_all

@[simp] lemma skipBlanks_readerStack (st : DSNLEXER) :
    (skipBlanks st).readerStack = st.readerStack := rfl

@[simp] lemma scanTok_readerStack (st : DSNLEXER) :
    (scanTok st).readerStack = st.readerStack := by
  unfold scanTok
  cases h : curRest st with
  | nil => rfl
  | cons c t => simp only [setTok]; split_ifs <;> rfl

@[simp] lemma endTok_readerStack (st : DSNLEXER) :
    (endTok st).readerStack = st.readerStack := rfl

@[simp] lemma readLine_stack_len (st : DSNLEXER) :
    (readLine st).2.readerStack.length = st.readerStack.length := by
  cases h : st.readerStack <;> simp [readLine, h]

@[simp] lemma readLine_stack_tail (st : DSNLEXER) :
    (readLine st).2.readerStack.tail = st.readerStack.tail := by
  cases h : st.readerStack <;> simp [readLine, h]

@[simp] lemma readLineOrCmt_snd (st : DSNLEXER) :
    (readLineOrCmt st).2 = (readLine st).2 := by
  simp only [readLineOrCmt]
  split <;> rfl

lemma nextTokLoop_stack (fuel : Nat) (st : DSNLEXER) :
    (nextTokLoop fuel st).readerStack.length = st.readerStack.length ∧
      (nextTokLoop fuel st).readerStack.tail = st.readerStack.tail := by
  induction fuel generalizing st with
  | zero =>
      simp only [nextTokLoop]
      split
      · simp
      · simp
  | succ fuel ih =>
      simp only [nextTokLoop]
      split
      · simp
      · split
        · simp
        · split
          · split
            · simp
            · constructor
              · rw [(ih _).1]; simp
              · rw [(ih _).2]; simp
          · constructor
            · rw [(ih _).1]; simp
            · rw [(ih _).2]; simp

lemma NextTok_stack (st : DSNLEXER) :
    (NextTok st).readerStack.length = st.readerStack.length ∧
      (NextTok st).readerStack.tail = st.readerStack.tail := by
  unfold NextTok
  exact nextTokLoop_stack _ _

lemma NextTok_eq (st : DSNLEXER) :
    NextTok st =
      nextTokLoop ((activeReader st).pending.length + 1)
        { st with prevTok := st.curTok } := rfl

lemma skipBlanks_id (st : DSNLEXER) (h : (curLineOf st).length ≤ st.next) :
    skipBlanks st = st := by
  unfold skipBlanks curRest
  rw [List.drop_eq_nil_of_le h]
  simp

lemma skipBlanks_eq (st : DSNLEXER) (bl : List Char) (c : Char) (r : List Char)
    (hrest : curRest st = bl ++ c :: r) (hbl : ∀ x ∈ bl, isBlank x = true)
    (hc : isBlank c = false) :
    skipBlanks st = { st with next := st.next + bl.length } := by
  unfold skipBlanks
  rw [hrest, takeWhile_all_append _ _ _ _ hbl hc]

lemma nextTokLoop_scan (fuel : Nat) (st : DSNLEXER)
    (hlt : (skipBlanks st).next < (skipBlanks st).limit) :
    nextTokLoop fuel st = scanTok (skipBlanks st) := by
  cases fuel <;> simp only [nextTokLoop] <;> rw [if_pos hlt]

lemma nextTokLoop_eofPull (fuel : Nat) (st : DSNLEXER) (rd : LINE_READER)
    (tl : List LINE_READER) (hstack : st.readerStack = rd :: tl)
    (hpend : rd.pending = []) (hcur : (curLineOf st).length ≤ st.next)
    (hlim : st.limit ≤ st.next) :
    nextTokLoop (fuel + 1) st =
      endTok { st with readerStack := { rd with curLine := [] } :: tl,
                       next := 0, limit := 0 } := by
  have hskip : skipBlanks st = st := skipBlanks_id st hcur
  have hrl : readLine st =
      (0, { st with readerStack := { rd with curLine := [] } :: tl,
                    next := 0, limit := 0 }) := by
    simp [readLine, hstack, ReadLine, hpend]
  have hcm : readLineOrCmt st =
      ((0 : Int), { st with readerStack := { rd with curLine := [] } :: tl,
                            next := 0, limit := 0 }) := by
    simp [readLineOrCmt, hrl]
  simp only [nextTokLoop, hskip]
  rw [if_neg (Nat.not_lt.mpr hlim)]
  simp [hcm]

lemma nextTokLoop_pullLine (fuel : Nat) (st : DSNLEXER) (rd : LINE_READER)
    (tl : List LINE_READER) (l : List Char) (rest : List (List Char))
    (hstack : st.readerStack = rd :: tl) (hpend : rd.pending = l :: rest)
    (hcur : (curLineOf st).length ≤ st.next) (hlim : st.limit ≤ st.next)
    (hne : l ≠ []) (hcmt : l.head? ≠ some '#') :
    nextTokLoop (fuel + 1) st =
      nextTokLoop fuel
        { st with readerStack := advReader rd l rest :: tl,
                  next := 0, limit := l.length } := by
  have hskip : skipBlanks st = st := skipBlanks_id st hcur
  have hrl : readLine st =
      (l.length, { st with readerStack := advReader rd l rest :: tl,
                           next := 0, limit := l.length }) := by
    simp [readLine, hstack, ReadLine, hpend]
  have hcm : readLineOrCmt st =
      ((l.length : Int), { st with readerStack := advReader rd l rest :: tl,
                                   next := 0, limit := l.length }) := by
    simp only [readLineOrCmt, hrl]
    rw [if_neg]
    simp only [curLineOf, activeReader, List.headD, advReader]
    intro hand
    exact hcmt (of_decide_eq_true (Bool.and_elim_right hand))
  have hlen : l.length ≠ 0 := fun h0 => hne (List.eq_nil_of_length_eq_zero h0)
  simp only [nextTokLoop, hskip]
  rw [if_neg (Nat.not_lt.mpr hlim)]
  simp only [hcm]
  rw [if_neg (by simpa using hlen), if_neg (by simp [DSN_COMMENT])]

lemma nextTokLoop_pullCmt (fuel : Nat) (st : DSNLEXER) (rd : LINE_READER)
    (tl : List LINE_READER) (l : List Char) (rest : List (List Char))
    (hstack : st.readerStack = rd :: tl) (hpend : rd.pending = l :: rest)
    (hcur : (curLineOf st).length ≤ st.next) (hlim : st.limit ≤ st.next)
    (hne : l ≠ []) (hcmt : l.head? = some '#') :
    nextTokLoop (fuel + 1) st =
      (if st.commentsAreTokens then
        { st with readerStack := advReader rd l rest :: tl,
                  next := l.length, limit := l.length, curTok := DSN_COMMENT,
                  curText := l, curOffset := 0 }
      else
        nextTokLoop fuel
          { st with readerStack := advReader rd l rest :: tl,
                    next := l.length, limit := l.length }) := by
  have hskip : skipBlanks st = st := skipBlanks_id st hcur
  have hrl : readLine st =
      (l.length, { st with readerStack := advReader rd l rest :: tl,
                           next := 0, limit := l.length }) := by
    simp [readLine, hstack, ReadLine, hpend]
  have hlen : l.length ≠ 0 := fun h0 => hne (List.eq_nil_of_length_eq_zero h0)
  have hcm : readLineOrCmt st =
      (DSN_COMMENT, { st with readerStack := advReader rd l rest :: tl,
                              next := 0, limit := l.length }) := by
    simp only [readLineOrCmt, hrl]
    rw [if_pos]
    simp [curLineOf, activeReader, advReader, hcmt, hlen]
  have hC0 : (DSN_COMMENT = 0) = False := by simp [DSN_COMMENT]
  have hCC : (DSN_COMMENT = DSN_COMMENT) = True := by simp
  simp only [nextTokLoop, hskip]
  rw [if_neg (Nat.not_lt.mpr hlim)]
  simp only [hcm, hC0, hCC, if_false, if_true]
  split
  · simp [curLineOf, activeReader, advReader]
  · rfl

lemma scanTok_left (st : DSNLEXER) (t : List Char)
    (hrest : curRest st = '(' :: t) :
    scanTok st = setTok st st.next DSN_LEFT ['('] (st.next + 1) := by
  simp [scanTok, hrest, setTok]

lemma scanTok_right (st : DSNLEXER) (t : List Char)
    (hrest : curRest st = ')' :: t) :
    scanTok st = setTok st st.next DSN_RIGHT [')'] (st.next + 1) := by
  simp [scanTok, hrest, setTok]

lemma scanTok_string (st : DSNLEXER) (t : List Char)
    (hrest : curRest st = st.stringDelimiter :: t)
    (hnl : st.stringDelimiter ≠ '(') (hnr : st.stringDelimiter ≠ ')') :
    scanTok st = setTok st st.next DSN_STRING
      (t.takeWhile fun x => !isStringTerminator st x)
      (st.next + 1 + (t.takeWhile fun x => !isStringTerminator st x).length +
        (if (t.dropWhile fun x => !isStringTerminator st x).isEmpty then 0
         else 1)) := by
  simp [scanTok, hrest, hnl, hnr, setTok]

lemma scanTok_dash (st : DSNLEXER) (t : List Char)
    (hrest : curRest st = '-' :: t) (h1 : st.stringDelimiter ≠ '-')
    (hstart : startsNumAt ('-' :: t) = false) :
    scanTok st = setTok st st.next DSN_DASH ['-'] (st.next + 1) := by
  have h1' : ('-' : Char) ≠ st.stringDelimiter := fun h => h1 h.symm
  simp [scanTok, hrest, h1', hstart, setTok]

lemma scanTok_num (st : DSNLEXER) (c : Char) (t : List Char)
    (hrest : curRest st = c :: t) (h1 : c ≠ '(') (h2 : c ≠ ')')
    (h3 : c ≠ st.stringDelimiter) (hstart : startsNumAt (c :: t) = true)
    (hcomp : isCompleteNumber ((c :: t).takeWhile fun x => !stopsRun st x) = true) :
    scanTok st = setTok st st.next DSN_NUMBER
      ((c :: t).takeWhile fun x => !stopsRun st x)
      (st.next + ((c :: t).takeWhile fun x => !stopsRun st x).length) := by
  simp [scanTok, hrest, h1, h2, h3, hstart, hcomp, setTok]

lemma scanTok_sym_incomplete (st : DSNLEXER) (c : Char) (t : List Char)
    (hrest : curRest st = c :: t) (h1 : c ≠ '(') (h2 : c ≠ ')')
    (h3 : c ≠ st.stringDelimiter) (hstart : startsNumAt (c :: t) = true)
    (hcomp : isCompleteNumber ((c :: t).takeWhile fun x => !stopsRun st x) = false) :
    scanTok st = setTok st st.next DSN_SYMBOL
      ((c :: t).takeWhile fun x => !stopsRun st x)
      (st.next + ((c :: t).takeWhile fun x => !stopsRun st x).length) := by
  simp [scanTok, hrest, h1, h2, h3, hstart, hcomp, setTok]

lemma scanTok_sym (st : DSNLEXER) (c : Char) (t : List Char)
    (hrest : curRest st = c :: t) (h1 : c ≠ '(') (h2 : c ≠ ')')
    (h3 : c ≠ st.stringDelimiter) (hc : c ≠ '-')
    (hstart : startsNumAt (c :: t) = false) :
    scanTok st = setTok st st.next DSN_SYMBOL
      ((c :: t).takeWhile fun x => !stopsRun st x)
      (st.next + ((c :: t).takeWhile fun x => !stopsRun st x).length) := by
  simp [scanTok, hrest, h1, h2, h3, hc, hstart, setTok]

lemma skipBlanks_nb (st : DSNLEXER) (c : Char) (t : List Char)
    (hrest : curRest st = c :: t) (hc : isBlank c = false) :
    skipBlanks st = st := by
  unfold skipBlanks
  rw [hrest, List.takeWhile_cons_of_neg (by simp [hc])]
  simp

lemma scanTok_curOffset (st : DSNLEXER) (hne : curRest st ≠ []) :
    (scanTok st).curOffset = st.next := by
  cases h : curRest st with
  | nil => exact absurd h hne
  | cons c t =>
      simp only [scanTok, h]
      split_ifs <;> rfl

lemma nextTokLoop_offset (fuel : Nat) (st : DSNLEXER) (j : Nat) (c : Char)
    (r : List Char) (hrest : curRest st = List.replicate j ' ' ++ c :: r)
    (hc : isBlank c = false) (hlim : st.limit = (curLineOf st).length)
    (hle : st.next ≤ st.limit) :
    (nextTokLoop fuel st).curOffset = st.next + j := by
  have hbl : ∀ x ∈ List.replicate j ' ', isBlank x = true := by
    intro x hx
    rw [List.eq_of_mem_replicate hx]
    rfl
  have hskip := skipBlanks_eq st (List.replicate j ' ') c r hrest hbl hc
  have hlenrest : (curRest st).length = (curLineOf st).length - st.next := by
    simp [curRest]
  have hlen2 : j + (r.length + 1) = (curLineOf st).length - st.next := by
    rw [hrest] at hlenrest
    simpa using hlenrest
  have hlt : st.next + j < st.limit := by omega
  have hdrop : curRest { st with next := st.next + j } = c :: r := by
    have h2 : (curLineOf st).drop (st.next + j) = c :: r := by
      rw [← List.drop_drop]
      show (curRest st).drop j = _
      rw [hrest]
      exact List.drop_left' (by simp)
    exact h2
  simp only [List.length_replicate] at hskip
  have hscan := nextTokLoop_scan fuel st
    (by rw [hskip]; simpa using hlt)
  rw [hscan, hskip]
  rw [scanTok_curOffset _ (by rw [hdrop]; simp)]

lemma nextTokLoop_eofPull2 (fuel : Nat) (st : DSNLEXER) (rd : LINE_READER)
    (tl : List LINE_READER) (hstack : st.readerStack = rd :: tl)
    (hpend : rd.pending = [])
    (hblank : ∀ c ∈ curRest st, isBlank c = true)
    (hlim : st.limit = (curLineOf st).length) (hle : st.next ≤ st.limit) :
    (nextTokLoop (fuel + 1) st).curTok =
      (if tl = [] then DSN_EOF else DSN_NONE) := by
  have hskip : skipBlanks st =
      { st with next := st.next + (curRest st).length } := by
    unfold skipBlanks
    rw [takeWhile_all _ _ hblank]
  have hlenrest : (curRest st).length = (curLineOf st).length - st.next := by
    simp [curRest]
  have hrl : readLine { st with next := st.next + (curRest st).length } =
      (0, { st with readerStack := { rd with curLine := [] } :: tl,
                    next := 0, limit := 0 }) := by
    simp [readLine, hstack, ReadLine, hpend]
  have hcm : readLineOrCmt { st with next := st.next + (curRest st).length } =
      ((0 : Int), { st with readerStack := { rd with curLine := [] } :: tl,
                            next := 0, limit := 0 }) := by
    simp [readLineOrCmt, hrl]
  have hge : st.limit ≤ st.next + (curRest st).length := by omega
  simp only [nextTokLoop, hskip]
  rw [if_neg (Nat.not_lt.mpr hge)]
  simp only [hcm]
  cases tl with
  | nil => simp [endTok]
  | cons b r =>
      have hgt : ¬(({ rd with curLine := [] } :: b :: r).length ≤ 1) := by
        simp only [List.length_cons]
        omega
      simp [endTok, hgt]

lemma applyOps_stack_pos (ops : List LexOp) : ∀ st : DSNLEXER,
    1 ≤ st.readerStack.length → 1 ≤ (applyOps st ops).readerStack.length := by
  induction ops with
  | nil => intro st h; simpa [applyOps] using h
  | cons op rest ih =>
      intro st h
      have hstep : 1 ≤ (applyOp st op).readerStack.length := by
        cases op with
        | push lr => simp only [applyOp, PushReader, List.length_cons]; omega
        | pop =>
            cases hs : st.readerStack with
            | nil => rw [hs] at h; simp at h
            | cons a t =>
                cases t with
                | nil => simp [applyOp, PopReader, hs]
                | cons b r => simp [applyOp, PopReader, hs]
        | tok =>
            simp only [applyOp]
            rw [(NextTok_stack st).1]
            exact h
      have hfold : applyOps st (op :: rest) = applyOps (applyOp st op) rest := rfl
      rw [hfold]
      exact ih _ hstep

end Helpers

/-- Claim C1: for every lexer state, `PopReader` returns false and leaves the
entire lexer state unchanged whenever fewer than two readers are on the
stack; with two or more readers it releases the top reader, makes the
previous one active and returns true; consequently the reader stack holds at
least one reader at all times after construction, under every sequence of
`PushReader` / `PopReader` / `NextTok` calls. -/
theorem C1_PopReader_stack (st : DSNLEXER) (ops : List LexOp) :
    (st.readerStack.length < 2 → PopReader st = (false, st)) ∧
    (2 ≤ st.readerStack.length →
      (PopReader st).1 = true ∧
      (PopReader st).2.readerStack = st.readerStack.tail ∧
      activeReader (PopReader st).2 = st.readerStack.tail.headD emptyReader) ∧
    (1 ≤ st.readerStack.length →
      1 ≤ (applyOps st ops).readerStack.length) := by
  refine ⟨?_, ?_, applyOps_stack_pos ops st⟩
  · intro h
    cases hs : st.readerStack with
    | nil => simp [PopReader, hs]
    | cons a t =>
        cases t with
        | nil => simp [PopReader, hs]
        | cons b r => rw [hs] at h; simp at h; omega
  · intro h
    cases hs : st.readerStack with
    | nil => rw [hs] at h; simp at h
    | cons a t =>
        cases t with
        | nil => rw [hs] at h; simp at h
        | cons b r => simp [PopReader, hs, activeReader]

/-- Claim C1 witness: a freshly constructed lexer refuses a pop and is left
unchanged; after one push a pop succeeds; and the stack stays non-empty
under a concrete sequence of operations. -/
theorem C1_witness :
    PopReader (mkLexer [] []) = (false, mkLexer [] []) ∧
    (PopReader (PushReader (mkLexer [] []) emptyReader)).1 = true ∧
    1 ≤ (applyOps (mkLexer [] [])
      [LexOp.push emptyReader, LexOp.pop, LexOp.tok]).readerStack.length :=
  ⟨(C1_PopReader_stack (mkLexer [] []) []).1 (by decide),
   ((C1_PopReader_stack (PushReader (mkLexer [] []) emptyReader) []).2.1
      (by decide)).1,
   (C1_PopReader_stack (mkLexer [] [])
      [LexOp.push emptyReader, LexOp.pop, LexOp.tok]).2.2 (by decide)⟩

/-- Claim C5: `NextTok` never pops a reader from the stack on its own (the
stack length and all lower readers are preserved by every call); and at the
point where a line pull is required (cursor at or past the line limit) with
the active reader out of lines, `NextTok` returns the `DSN_EOF` sentinel if
and only if no lower reader remains on the stack. -/
theorem C5_eof_sentinel :
    (∀ st : DSNLEXER,
      (NextTok st).readerStack.length = st.readerStack.length ∧
      (NextTok st).readerStack.tail = st.readerStack.tail) ∧
    (∀ (st : DSNLEXER) (rd : LINE_READER) (tl : List LINE_READER),
      st.readerStack = rd :: tl → rd.pending = [] →
      (curLineOf st).length ≤ st.next → st.limit ≤ st.next →
      ((NextTok st).curTok = DSN_EOF ↔ tl = [])) := by
  refine ⟨NextTok_stack, ?_⟩
  intro st rd tl hstack hpend hcur hlim
  have hfuel : (activeReader st).pending.length + 1 = 0 + 1 := by
    simp [activeReader, hstack, hpend]
  have h1 : NextTok st =
      endTok { { st with prevTok := st.curTok } with
               readerStack := { rd with curLine := [] } :: tl,
               next := 0, limit := 0 } := by
    rw [NextTok_eq, hfuel]
    exact nextTokLoop_eofPull 0 _ rd tl hstack hpend hcur hlim
  rw [h1]
  simp only [endTok]
  cases tl with
  | nil => simp
  | cons b r =>
      simp only [List.length_cons]
      rw [if_neg (by omega)]
      simp [DSN_NONE, DSN_EOF]

/-- Claim C5 witness: a lexer whose only reader is exhausted returns
`DSN_EOF`; with a second reader pushed on top, the same exhausted active
reader does not produce `DSN_EOF` and the stack is not popped. -/
theorem C5_witness :
    (NextTok (mkLexer [] [])).curTok = DSN_EOF ∧
    (NextTok (PushReader (mkLexer [] []) emptyReader)).curTok ≠ DSN_EOF ∧
    (NextTok (PushReader (mkLexer [] [])
      emptyReader)).readerStack.length = 2 := by
  refine ⟨?_, ?_, ?_⟩
  · exact (C5_eof_sentinel.2 (mkLexer [] []) _ [] rfl rfl (by decide)
      (by decide)).mpr rfl
  · intro hEof
    have h := (C5_eof_sentinel.2 (PushReader (mkLexer [] []) emptyReader)
      emptyReader [(mkLexer [] []).readerStack.headD emptyReader] (by decide)
      rfl (by decide) (by decide)).mp hEof
    simp at h
  · rw [(C5_eof_sentinel.1 (PushReader (mkLexer [] []) emptyReader)).1]
    decide

/-- Claim C7: each of the three configuration setters stores the new value and
returns exactly the value that was configured immediately before the call,
for every lexer state and every argument value. -/
theorem C7_setters_return_previous (st : DSNLEXER) (d : Char) (b c : Bool) :
    SetStringDelimiter st d = (st.stringDelimiter, { st with stringDelimiter := d }) ∧
    SetSpaceInQuotedTokens st b =
      (st.space_in_quoted_tokens, { st with space_in_quoted_tokens := b }) ∧
    SetCommentsAreTokens st c =
      (st.commentsAreTokens, { st with commentsAreTokens := c }) :=
  ⟨rfl, rfl, rfl⟩

/-- Claim C10: after every call to `readLine` returning length `len`, the
cursor `next` points at the first character of the freshly read line buffer
of the active reader (index 0) and `limit` equals `next + len`, so
`limit - next = len`; this holds for every lexer state, hence it is
re-established on every line pull. -/
theorem C10_readLine_cursor (st : DSNLEXER) :
    (readLine st).2.next = 0 ∧
    (readLine st).2.limit = (readLine st).2.next + (readLine st).1 ∧
    (readLine st).2.limit - (readLine st).2.next = (readLine st).1 ∧
    (curLineOf (readLine st).2).length = (readLine st).1 := by
  cases h : st.readerStack with
  | nil => simp [readLine, h, curLineOf, activeReader, emptyReader]
  | cons r rest =>
      cases h2 : r.pending <;>
        simp [readLine, h, curLineOf, activeReader, ReadLine, h2, advReader]

/-- Claim C9, counterexample: the claim states that a tab (a blank other than
' ') never terminates a quoted string in any configuration; but when the
configured string delimiter is itself the tab character, `isStringTerminator`
returns true on a tab. -/
theorem C9_counterexample :
    ¬ (∀ (st : DSNLEXER) (cc : Char), isBlank cc = true → cc ≠ ' ' →
        isStringTerminator st cc = false) := by
  intro h
  exact absurd
    (h (SetStringDelimiter (mkLexer [] []) '\t').2 '\t' (by decide) (by decide))
    (by decide)

/-- Claim C9, amended: `isStringTerminator cc` is true iff `cc` equals the
configured string delimiter, or `space_in_quoted_tokens` is false and `cc` is
exactly the space character; consequently a tab or any blank other than ' '
never terminates a quoted string unless it is itself the configured
delimiter, and when the delimiter is set to ' ' a space terminates the
string even with `space_in_quoted_tokens` true. -/
theorem C9_isStringTerminator_amended (st : DSNLEXER) (cc : Char) :
    (isStringTerminator st cc = true ↔
      (cc = st.stringDelimiter ∨
        (st.space_in_quoted_tokens = false ∧ cc = ' '))) ∧
    (isBlank cc = true → cc ≠ ' ' → cc ≠ st.stringDelimiter →
      isStringTerminator st cc = false) ∧
    (st.stringDelimiter = ' ' → isStringTerminator st ' ' = true) := by
  refine ⟨?_, ?_, ?_⟩
  · rw [isStringTerminator_eq]
    cases hsp : st.space_in_quoted_tokens <;> by_cases hd : cc = st.stringDelimiter <;>
      by_cases hspace : cc = ' ' <;> simp [hd, hspace]
  · intro _ h2 h3
    rw [isStringTerminator_eq]
    simp [h2, h3]
  · intro h
    rw [isStringTerminator_eq, h]
    simp

/-- Claim C9 witness: in the default configuration (delimiter '"'), the tab
character is a blank other than ' ' and does not terminate a quoted string;
with the delimiter set to ' ', a space terminates even when
`space_in_quoted_tokens` is true. -/
theorem C9_witness :
    isBlank '\t' = true ∧ '\t' ≠ ' ' ∧
      isStringTerminator (mkLexer [] []) '\t' = false ∧
      isStringTerminator (cfgLexer ' ' true []) ' ' = true :=
  ⟨by decide, by decide,
    (C9_isStringTerminator_amended (mkLexer [] []) '\t').2.1 (by decide) (by decide)
      (by decide),
    (C9_isStringTerminator_amended (cfgLexer ' ' true []) ' ').2.2 (by decide)⟩

/-- Claim C6: `findToken` is a pure function of the keyword table and the
input text.  When the table's entries have pairwise distinct names up to
case, an input equal to a registered entry's name up to case returns that
entry's id; an input matching no entry up to case returns -1 (not found);
and the result depends on the input only through its case fold, so all case
variants of a name return the same id. -/
theorem C6_findToken_lookup :
    (∀ (kws : List KEYWORD) (tok : List Char) (e : KEYWORD),
      kws.Pairwise (fun a b => lowered a.name ≠ lowered b.name) →
      e ∈ kws → lowered tok = lowered e.name → findToken kws tok = e.token) ∧
    (∀ (kws : List KEYWORD) (tok : List Char),
      (∀ e ∈ kws, lowered e.name ≠ lowered tok) → findToken kws tok = -1) ∧
    (∀ (kws : List KEYWORD) (t1 t2 : List Char),
      lowered t1 = lowered t2 → findToken kws t1 = findToken kws t2) := by
  refine ⟨?_, ?_, ?_⟩
  · intro kws tok e hpw he htok
    induction kws with
    | nil => simp at he
    | cons k rest ih =>
        rcases List.mem_cons.mp he with rfl | hmem
        · simp [findToken, htok.symm]
        · have hne : lowered k.name ≠ lowered tok := by
            intro hkeq
            exact (List.pairwise_cons.mp hpw).1 e hmem (by rw [hkeq, htok])
          simp only [findToken, if_neg hne]
          exact ih (List.pairwise_cons.mp hpw).2 hmem
  · intro kws tok h
    induction kws with
    | nil => rfl
    | cons k rest ih =>
        simp only [findToken, if_neg (h k (by simp))]
        exact ih fun e he => h e (by simp [he])
  · intro kws t1 t2 h
    induction kws with
    | nil => rfl
    | cons k rest ih => simp only [findToken, h, ih]

/-- Claim C6 witness: with "via" registered with id 27, the inputs "Via",
"VIA" and "via" all return 27, and an unregistered name returns -1. -/
theorem C6_witness :
    findToken [⟨"via".toList, 27⟩] "Via".toList = 27 ∧
    findToken [⟨"via".toList, 27⟩] "VIA".toList = 27 ∧
    findToken [⟨"via".toList, 27⟩] "via".toList = 27 ∧
    findToken [⟨"via".toList, 27⟩] "pad".toList = -1 :=
  ⟨C6_findToken_lookup.1 _ _ ⟨"via".toList, 27⟩ (by simp) (by simp) (by decide),
   C6_findToken_lookup.1 _ _ ⟨"via".toList, 27⟩ (by simp) (by simp) (by decide),
   C6_findToken_lookup.1 _ _ ⟨"via".toList, 27⟩ (by simp) (by simp) (by decide),
   C6_findToken_lookup.2.1 _ _ (by decide)⟩

/-- Claim C4: at a comment-only line (first character is the comment marker),
when `commentsAreTokens` is true `NextTok` emits exactly one `DSN_COMMENT`
token whose text is the full comment line including the marker, consuming
the whole line; when `commentsAreTokens` is false, `NextTok` behaves exactly
as if the comment line had been removed from the input with only the line
number advanced — no token is emitted for that line. -/
theorem C4_comment_lines (st : DSNLEXER) (rd : LINE_READER)
    (tl : List LINE_READER) (l : List Char) (rest : List (List Char))
    (hstack : st.readerStack = rd :: tl) (hpend : rd.pending = l :: rest)
    (hcur : (curLineOf st).length ≤ st.next) (hlim : st.limit ≤ st.next)
    (hne : l ≠ []) (hcmt : l.head? = some '#') :
    (st.commentsAreTokens = true →
      (NextTok st).curTok = DSN_COMMENT ∧ (NextTok st).curText = l ∧
      (NextTok st).next = (NextTok st).limit ∧
      activeReader (NextTok st) = advReader rd l rest) ∧
    (st.commentsAreTokens = false →
      NextTok st =
        NextTok { st with readerStack := advReader rd l rest :: tl,
                          next := l.length, limit := l.length } ∧
      (advReader rd l rest).lineNum = rd.lineNum + 1) := by
  have hfuel : (activeReader st).pending.length + 1 = rest.length + 1 + 1 := by
    simp [activeReader, hstack, hpend]
  have hstep := nextTokLoop_pullCmt (rest.length + 1)
    { st with prevTok := st.curTok } rd tl l rest hstack hpend hcur hlim hne hcmt
  constructor
  · intro hct
    have h1 : NextTok st =
        { { st with prevTok := st.curTok } with
          readerStack := advReader rd l rest :: tl,
          next := l.length, limit := l.length, curTok := DSN_COMMENT,
          curText := l, curOffset := 0 } := by
      rw [NextTok_eq, hfuel, hstep, if_pos hct]
    rw [h1]
    exact ⟨rfl, rfl, rfl, by simp [activeReader]⟩
  · intro hcf
    refine ⟨?_, rfl⟩
    rw [NextTok_eq, hfuel, hstep, if_neg (by rw [hcf]; simp), NextTok_eq]
    rfl

/-- Claim C4 witness: on the two-line input "#a\n", "(\n" the lexer with
comments-as-tokens enabled returns one Comment token carrying the whole
comment line, while with the flag disabled the call is literally the same as
lexing with the comment line dropped and the line count advanced. -/
theorem C4_witness :
    (NextTok (SetCommentsAreTokens
      (mkLexer [['#', 'a', '\n'], ['(', '\n']] []) true).2).curTok =
        DSN_COMMENT ∧
    (NextTok (SetCommentsAreTokens
      (mkLexer [['#', 'a', '\n'], ['(', '\n']] []) true).2).curText =
        ['#', 'a', '\n'] ∧
    NextTok (mkLexer [['#', 'a', '\n'], ['(', '\n']] []) =
      NextTok { mkLexer [['#', 'a', '\n'], ['(', '\n']] [] with
        readerStack :=
          [advReader ⟨[['#', 'a', '\n'], ['(', '\n']], 0, "clipboard", []⟩
            ['#', 'a', '\n'] [['(', '\n']]],
        next := 3, limit := 3 } := by
  have h1 := C4_comment_lines (SetCommentsAreTokens
      (mkLexer [['#', 'a', '\n'], ['(', '\n']] []) true).2
    ⟨[['#', 'a', '\n'], ['(', '\n']], 0, "clipboard", []⟩ []
    ['#', 'a', '\n'] [['(', '\n']] rfl rfl (by decide) (by decide)
    (by decide) (by decide)
  have h2 := C4_comment_lines (mkLexer [['#', 'a', '\n'], ['(', '\n']] [])
    ⟨[['#', 'a', '\n'], ['(', '\n']], 0, "clipboard", []⟩ []
    ['#', 'a', '\n'] [['(', '\n']] rfl rfl (by decide) (by decide)
    (by decide) (by decide)
  exact ⟨(h1.1 rfl).1, (h1.1 rfl).2.1, (h2.2 rfl).1⟩

/-- Claim C8: column offsets reported by `CurOffset` are 1-based.  For a token
whose first character sits after `j` blanks at cursor position `next` of the
current line, the recorded offset is that character's 0-based position and
`CurOffset` reports the 1-based position `next + j + 1`; in particular a
token at the first character of a freshly pulled line (no leading blanks)
reports offset 1. -/
theorem C8_one_based_offsets :
    (∀ (st : DSNLEXER) (j : Nat) (c : Char) (r : List Char),
      curRest st = List.replicate j ' ' ++ c :: r → isBlank c = false →
      st.limit = (curLineOf st).length → st.next ≤ st.limit →
      (NextTok st).curOffset = st.next + j ∧
      CurOffset (NextTok st) = st.next + j + 1) ∧
    (∀ (st : DSNLEXER) (rd : LINE_READER) (tl : List LINE_READER) (j : Nat)
      (c : Char) (r : List Char) (rest : List (List Char)),
      st.readerStack = rd :: tl →
      rd.pending = (List.replicate j ' ' ++ c :: r) :: rest →
      (curLineOf st).length ≤ st.next → st.limit ≤ st.next →
      isBlank c = false → c ≠ '#' →
      (NextTok st).curOffset = j ∧ CurOffset (NextTok st) = j + 1) := by
  constructor
  · intro st j c r hrest hc hlim hle
    have h := nextTokLoop_offset ((activeReader st).pending.length + 1)
      { st with prevTok := st.curTok } j c r hrest hc hlim hle
    rw [NextTok_eq]
    exact ⟨h, by rw [CurOffset, h]⟩
  · intro st rd tl j c r rest hstack hpend hcur hlim hc hch
    have hne : List.replicate j ' ' ++ c :: r ≠ [] := by simp
    have hh : (List.replicate j ' ' ++ c :: r).head? ≠ some '#' := by
      cases j with
      | zero => simpa using hch
      | succ n =>
          simp only [List.replicate, List.cons_append, List.head?]
          decide
    have hfuel : (activeReader st).pending.length + 1 = rest.length + 1 + 1 := by
      simp [activeReader, hstack, hpend]
    have hpull := nextTokLoop_pullLine (rest.length + 1)
      { st with prevTok := st.curTok } rd tl (List.replicate j ' ' ++ c :: r)
      rest hstack hpend hcur hlim hne hh
    have hoff := nextTokLoop_offset (rest.length + 1)
      { { st with prevTok := st.curTok } with
        readerStack := advReader rd (List.replicate j ' ' ++ c :: r) rest :: tl,
        next := 0, limit := (List.replicate j ' ' ++ c :: r).length }
      j c r (by simp [curRest, curLineOf, activeReader, advReader]) hc
      (by simp [curLineOf, activeReader, advReader]) (by simp)
    constructor
    · rw [NextTok_eq, hfuel, hpull, hoff]
      simp
    · rw [CurOffset, NextTok_eq, hfuel, hpull, hoff]
      simp

/-- Claim C8 witness: on the line "  x" (two leading blanks) the token "x"
reports 1-based offset 3; on the line "x" a token starting at the first
character of the line reports offset 1. -/
theorem C8_witness :
    CurOffset (NextTok (mkLexer [[' ', ' ', 'x', '\n']] [])) = 3 ∧
    CurOffset (NextTok (mkLexer [['x', '\n']] [])) = 1 := by
  constructor
  · exact (C8_one_based_offsets.2 (mkLexer [[' ', ' ', 'x', '\n']] [])
      ⟨[[' ', ' ', 'x', '\n']], 0, "clipboard", []⟩ [] 2 'x' ['\n'] []
      rfl (by decide) (by decide) (by decide) (by decide) (by decide)).2
  · exact (C8_one_based_offsets.2 (mkLexer [['x', '\n']] [])
      ⟨[['x', '\n']], 0, "clipboard", []⟩ [] 0 'x' ['\n'] []
      rfl (by decide) (by decide) (by decide) (by decide) (by decide)).2

section QuotedHelpers

lemma ne_space_of_not_blank {c : Char} (h : isBlank c = false) : c ≠ ' ' := by
  intro he
  rw [he] at h
  simp [isBlank] at h

lemma notTerm_of (st : DSNLEXER) (c : Char) (hcd : c ≠ st.stringDelimiter)
    (hsp : st.space_in_quoted_tokens = false → c ≠ ' ') :
    (!isStringTerminator st c) = true := by
  rw [isStringTerminator_eq]
  cases h : st.space_in_quoted_tokens with
  | true => simp [hcd]
  | false => simp [hcd, hsp h]

lemma term_delim (st : DSNLEXER) :
    (!isStringTerminator st st.stringDelimiter) = false := by
  rw [isStringTerminator_eq]
  simp

lemma quoted_scan (st : DSNLEXER) (s t2 : List Char)
    (hrest : curRest st = st.stringDelimiter :: (s ++ st.stringDelimiter :: t2))
    (hnl : st.stringDelimiter ≠ '(') (hnr : st.stringDelimiter ≠ ')')
    (hterm : ∀ c ∈ s, (fun x => !isStringTerminator st x) c = true) :
    scanTok st = setTok st st.next DSN_STRING s (st.next + 1 + s.length + 1) := by
  rw [scanTok_string st (s ++ st.stringDelimiter :: t2) hrest hnl hnr]
  rw [takeWhile_all_append _ s _ t2 hterm (term_delim st),
    dropWhile_all_append _ s _ t2 hterm (term_delim st)]
  simp

lemma quoted_scan_eol (st : DSNLEXER) (s : List Char)
    (hrest : curRest st = st.stringDelimiter :: s)
    (hnl : st.stringDelimiter ≠ '(') (hnr : st.stringDelimiter ≠ ')')
    (hterm : ∀ c ∈ s, (fun x => !isStringTerminator st x) c = true) :
    scanTok st = setTok st st.next DSN_STRING s (st.next + 1 + s.length) := by
  rw [scanTok_string st s hrest hnl hnr]
  rw [takeWhile_all _ s hterm, List.dropWhile_eq_nil_iff.mpr hterm]
  simp

lemma nextTokLoop_quoted (fuel : Nat) (st : DSNLEXER) (s t2 : List Char)
    (hrest : curRest st = st.stringDelimiter :: (s ++ st.stringDelimiter :: t2))
    (hbd : isBlank st.stringDelimiter = false)
    (hnl : st.stringDelimiter ≠ '(') (hnr : st.stringDelimiter ≠ ')')
    (hterm : ∀ c ∈ s, (fun x => !isStringTerminator st x) c = true)
    (hlim : st.limit = (curLineOf st).length) :
    nextTokLoop fuel st =
      setTok st st.next DSN_STRING s (st.next + 1 + s.length + 1) := by
  have hskip := skipBlanks_nb st st.stringDelimiter
    (s ++ st.stringDelimiter :: t2) hrest hbd
  have hlenrest : (curRest st).length = (curLineOf st).length - st.next := by
    simp [curRest]
  have hlt : st.next < st.limit := by
    rw [hrest] at hlenrest
    simp at hlenrest
    omega
  rw [nextTokLoop_scan fuel st (by rw [hskip]; exact hlt), hskip]
  exact quoted_scan st s t2 hrest hnl hnr hterm

lemma nextTokLoop_quoted_eol_curTok (fuel : Nat) (st : DSNLEXER) (s : List Char)
    (hrest : curRest st = st.stringDelimiter :: s)
    (hbd : isBlank st.stringDelimiter = false)
    (hnl : st.stringDelimiter ≠ '(') (hnr : st.stringDelimiter ≠ ')')
    (hterm : ∀ c ∈ s, (fun x => !isStringTerminator st x) c = true)
    (hlim : st.limit = (curLineOf st).length) :
    (nextTokLoop fuel st).curTok = DSN_STRING := by
  have hskip := skipBlanks_nb st st.stringDelimiter s hrest hbd
  have hlenrest : (curRest st).length = (curLineOf st).length - st.next := by
    simp [curRest]
  have hlt : st.next < st.limit := by
    rw [hrest] at hlenrest
    simp at hlenrest
    omega
  rw [nextTokLoop_scan fuel st (by rw [hskip]; exact hlt), hskip,
    quoted_scan_eol st s hrest hnl hnr hterm]
  rfl

lemma NextTok_eof2 (st : DSNLEXER) (rd : LINE_READER)
    (hstack : st.readerStack = [rd]) (hpend : rd.pending = [])
    (hblank : ∀ c ∈ curRest st, isBlank c = true)
    (hlim : st.limit = (curLineOf st).length) (hle : st.next ≤ st.limit) :
    (NextTok st).curTok = DSN_EOF := by
  rw [NextTok_eq]
  have hfuel : (activeReader st).pending.length + 1 = 0 + 1 := by
    simp [activeReader, hstack, hpend]
  rw [hfuel]
  have h := nextTokLoop_eofPull2 0 { st with prevTok := st.curTok } rd []
    hstack hpend hblank hlim hle
  rw [h]
  simp

end QuotedHelpers

/-- Claim C2, counterexample: the claim quantifies over every configured
string delimiter, but with the delimiter set to '(' the input line "(ab("
does not produce a QuotedString token — the opening character is classified
as a LeftBracket first (bracket classification precedes delimiter
classification). -/
theorem C2_counterexample :
    (NextTok (cfgLexer '(' false [['(', 'a', 'b', '(', '\n']])).curTok =
      DSN_LEFT ∧
    DSN_LEFT ≠ DSN_STRING := ⟨by decide, by decide⟩

/-- Claim C2, amended: for every configured string delimiter `d` that is not
a blank, not a bracket and not the comment marker, and every string `s`
containing no `d` and — when `space_in_quoted_tokens` is disabled — no blank
character, lexing the input line `d ++ s ++ d` yields exactly one token, a
QuotedString whose text is exactly `s` (delimiters excluded), followed by
end of file; and when no terminator occurs before the end of the line the
string is still closed at end of line as a QuotedString, with no error. -/
theorem C2_quoted_string_amended (d : Char) (sp : Bool) (s : List Char)
    (hbd : isBlank d = false) (hdl : d ≠ '(') (hdr : d ≠ ')') (hdh : d ≠ '#')
    (hds : d ∉ s)
    (hblanks : sp = false → ∀ c ∈ s, isBlank c = false) :
    (NextTok (cfgLexer d sp [d :: (s ++ [d, '\n'])])).curTok = DSN_STRING ∧
    (NextTok (cfgLexer d sp [d :: (s ++ [d, '\n'])])).curText = s ∧
    (NextTok (NextTok (cfgLexer d sp [d :: (s ++ [d, '\n'])]))).curTok =
      DSN_EOF ∧
    (NextTok (cfgLexer d sp [d :: (s ++ ['\n'])])).curTok = DSN_STRING := by
  have hdnl : d ≠ '\n' := by
    intro h
    rw [h] at hbd
    simp [isBlank] at hbd
  have htermGen : ∀ st' : DSNLEXER, st'.stringDelimiter = d →
      st'.space_in_quoted_tokens = sp → ∀ c ∈ s,
      (fun x => !isStringTerminator st' x) c = true := by
    intro st' hd' hsp' c hcin
    apply notTerm_of
    · rw [hd']
      exact fun h => hds (h ▸ hcin)
    · rw [hsp']
      intro hf
      exact ne_space_of_not_blank (hblanks hf c hcin)
  have htermNl : ∀ st' : DSNLEXER, st'.stringDelimiter = d →
      st'.space_in_quoted_tokens = sp → ∀ c ∈ s ++ ['\n'],
      (fun x => !isStringTerminator st' x) c = true := by
    intro st' hd' hsp' c hcin
    rcases List.mem_append.mp hcin with hs | hnl2
    · exact htermGen st' hd' hsp' c hs
    · have hceq : c = '\n' := by simpa using hnl2
      subst hceq
      apply notTerm_of
      · rw [hd']
        exact fun h => hdnl h.symm
      · intro _
        decide
  have hpull1 := nextTokLoop_pullLine (0 + 1)
    { cfgLexer d sp [d :: (s ++ [d, '\n'])] with
      prevTok := (cfgLexer d sp [d :: (s ++ [d, '\n'])]).curTok }
    ⟨[d :: (s ++ [d, '\n'])], 0, "clipboard", []⟩ [] (d :: (s ++ [d, '\n'])) []
    rfl rfl (Nat.le_refl 0) (Nat.le_refl 0) (by simp) (by simp [hdh])
  have hNT1 : NextTok (cfgLexer d sp [d :: (s ++ [d, '\n'])]) =
      setTok
        { cfgLexer d sp [d :: (s ++ [d, '\n'])] with
          readerStack :=
            [advReader ⟨[d :: (s ++ [d, '\n'])], 0, "clipboard", []⟩
              (d :: (s ++ [d, '\n'])) []],
          next := 0, limit := (d :: (s ++ [d, '\n'])).length }
        0 DSN_STRING s (0 + 1 + s.length + 1) := by
    rw [NextTok_eq,
      show (activeReader (cfgLexer d sp
        [d :: (s ++ [d, '\n'])])).pending.length + 1 = 0 + 1 + 1 from rfl,
      hpull1]
    exact nextTokLoop_quoted (0 + 1) _ s ['\n'] rfl hbd hdl hdr
      (htermGen _ rfl rfl) rfl
  have hsplit : d :: (s ++ [d, '\n']) = (d :: (s ++ [d])) ++ ['\n'] := by simp
  have hlen2 : (d :: (s ++ [d])).length = 0 + 1 + s.length + 1 := by
    simp only [List.length_cons, List.length_append, List.length_nil]
    omega
  have hdropline : (d :: (s ++ [d, '\n'])).drop (0 + 1 + s.length + 1) =
      ['\n'] := by
    rw [hsplit]
    exact List.drop_left' hlen2
  refine ⟨by rw [hNT1]; rfl, by rw [hNT1]; rfl, ?_, ?_⟩
  · rw [hNT1]
    refine NextTok_eof2 _
      (advReader ⟨[d :: (s ++ [d, '\n'])], 0, "clipboard", []⟩
        (d :: (s ++ [d, '\n'])) []) rfl rfl ?_ rfl ?_
    · intro c hc
      simp only [curRest, curLineOf, activeReader, setTok, advReader,
        List.headD] at hc
      rw [hdropline] at hc
      simp at hc
      subst hc
      rfl
    · show 0 + 1 + s.length + 1 ≤ (d :: (s ++ [d, '\n'])).length
      simp only [List.length_cons, List.length_append, List.length_nil]
      omega
  · have hpull2 := nextTokLoop_pullLine (0 + 1)
      { cfgLexer d sp [d :: (s ++ ['\n'])] with
        prevTok := (cfgLexer d sp [d :: (s ++ ['\n'])]).curTok }
      ⟨[d :: (s ++ ['\n'])], 0, "clipboard", []⟩ [] (d :: (s ++ ['\n'])) []
      rfl rfl (Nat.le_refl 0) (Nat.le_refl 0) (by simp) (by simp [hdh])
    rw [NextTok_eq,
      show (activeReader (cfgLexer d sp
        [d :: (s ++ ['\n'])])).pending.length + 1 = 0 + 1 + 1 from rfl,
      hpull2]
    exact nextTokLoop_quoted_eol_curTok (0 + 1) _ (s ++ ['\n']) rfl hbd hdl hdr
      (htermNl _ rfl rfl) rfl

/-- Claim C2 witness: with the default delimiter '"' and
`space_in_quoted_tokens` disabled, the line `"ab"` lexes to a single
QuotedString token with text `ab` followed by end of file, and the
unterminated line `"ab` still closes as a QuotedString at end of line. -/
theorem C2_witness :
    (NextTok (cfgLexer '"' false [['"', 'a', 'b', '"', '\n']])).curTok =
      DSN_STRING ∧
    (NextTok (cfgLexer '"' false [['"', 'a', 'b', '"', '\n']])).curText =
      ['a', 'b'] ∧
    (NextTok (NextTok (cfgLexer '"' false
      [['"', 'a', 'b', '"', '\n']]))).curTok = DSN_EOF ∧
    (NextTok (cfgLexer '"' false [['"', 'a', 'b', '\n']])).curTok =
      DSN_STRING :=
  C2_quoted_string_amended '"' false ['a', 'b'] (by decide) (by decide)
    (by decide) (by decide) (by decide) (fun _ => by decide)

section RunHelpers

lemma startsNumAt_nl (c0 : Char) (t0 : List Char) :
    startsNumAt ((c0 :: t0) ++ ['\n']) = startsNumAt (c0 :: t0) := by
  have hnd : ('\n').isDigit = false := by decide
  cases t0 with
  | nil => simp [startsNumAt, hnd]
  | cons d t => simp [startsNumAt]

lemma nextTokLoop_runCases (fuel : Nat) (st : DSNLEXER) (c0 : Char)
    (t0 : List Char) (hrest : curRest st = (c0 :: t0) ++ ['\n'])
    (hstop2 : ∀ c ∈ c0 :: t0, (fun x => !stopsRun st x) c = true)
    (hlim : st.limit = (curLineOf st).length) :
    (startsNumAt (c0 :: t0) = true → isCompleteNumber (c0 :: t0) = true →
      (nextTokLoop fuel st).curTok = DSN_NUMBER ∧
      (nextTokLoop fuel st).curText = c0 :: t0) ∧
    (startsNumAt (c0 :: t0) = true → isCompleteNumber (c0 :: t0) = false →
      (nextTokLoop fuel st).curTok = DSN_SYMBOL ∧
      (nextTokLoop fuel st).curText = c0 :: t0) ∧
    (c0 = '-' → startsNumAt (c0 :: t0) = false →
      (nextTokLoop fuel st).curTok = DSN_DASH ∧
      (nextTokLoop fuel st).curText = ['-']) ∧
    (c0 ≠ '-' → startsNumAt (c0 :: t0) = false →
      (nextTokLoop fuel st).curTok = DSN_SYMBOL ∧
      (nextTokLoop fuel st).curText = c0 :: t0) := by
  have hc0 : stopsRun st c0 = false := by
    simpa using hstop2 c0 (by simp)
  have hcb : isBlank c0 = false ∧ ¬(c0 = '(') ∧ ¬(c0 = ')') ∧
      ¬(c0 = st.stringDelimiter) := by
    have h := hc0
    simp [stopsRun] at h
    exact ⟨h.1.1.1, h.1.1.2, h.1.2, h.2⟩
  have hrest2 : curRest st = c0 :: (t0 ++ ['\n']) := by simpa using hrest
  have hskip := skipBlanks_nb st c0 (t0 ++ ['\n']) hrest2 hcb.1
  have hlenrest : (curRest st).length = (curLineOf st).length - st.next := by
    simp [curRest]
  have hlt : st.next < st.limit := by
    rw [hrest2] at hlenrest
    simp at hlenrest
    omega
  have hscan : nextTokLoop fuel st = scanTok st := by
    rw [nextTokLoop_scan fuel st (by rw [hskip]; exact hlt), hskip]
  have hnlb : isBlank '\n' = true := by decide
  have hrun : (c0 :: (t0 ++ ['\n'])).takeWhile (fun x => !stopsRun st x) =
      c0 :: t0 := by
    have h := takeWhile_all_append (fun x => !stopsRun st x) (c0 :: t0) '\n' []
      hstop2 (by simp [stopsRun, hnlb])
    simpa using h
  have hstartEq : startsNumAt (c0 :: (t0 ++ ['\n'])) =
      startsNumAt (c0 :: t0) := startsNumAt_nl c0 t0
  refine ⟨?_, ?_, ?_, ?_⟩
  · intro hs hcomp
    rw [hscan, scanTok_num st c0 (t0 ++ ['\n']) hrest2 hcb.2.1 hcb.2.2.1
      hcb.2.2.2 (by rw [hstartEq]; exact hs) (by rw [hrun]; exact hcomp)]
    exact ⟨rfl, hrun⟩
  · intro hs hcomp
    rw [hscan, scanTok_sym_incomplete st c0 (t0 ++ ['\n']) hrest2 hcb.2.1
      hcb.2.2.1 hcb.2.2.2 (by rw [hstartEq]; exact hs)
      (by rw [hrun]; exact hcomp)]
    exact ⟨rfl, hrun⟩
  · intro hd hs
    subst hd
    rw [hscan, scanTok_dash st (t0 ++ ['\n']) hrest2
      (fun h => hcb.2.2.2 h.symm) (by rw [hstartEq]; exact hs)]
    exact ⟨rfl, rfl⟩
  · intro hd hs
    rw [hscan, scanTok_sym st c0 (t0 ++ ['\n']) hrest2 hcb.2.1 hcb.2.2.1
      hcb.2.2.2 hd (by rw [hstartEq]; exact hs)]
    exact ⟨rfl, hrun⟩

end RunHelpers

/-- Claim C3, counterexample: the claim states that a maximal run that is
neither a syntactically complete number nor a single '-' is reclassified as
one Symbol token covering the whole run; but on the run "-x" the lexer emits
a Dash token consuming only the '-' (the dash rule applies to any '-' not
immediately followed by a digit, not only to a lone '-'). -/
theorem C3_counterexample :
    (NextTok (mkLexer [['-', 'x', '\n']] [])).curTok = DSN_DASH ∧
    (NextTok (mkLexer [['-', 'x', '\n']] [])).curText = ['-'] ∧
    isCompleteNumber ['-', 'x'] = false ∧ (['-', 'x'] : List Char) ≠ ['-'] ∧
    DSN_DASH ≠ DSN_SYMBOL :=
  ⟨by decide, by decide, by decide, by decide, by decide⟩

/-- Claim C3, amended: for a maximal run of characters that end no token
(no blanks, brackets, or string delimiter), the lexer classifies the run as
Number exactly when the run can start a numeric literal (a digit, or
'-'/'+'/'.' immediately followed by a digit) and is a syntactically complete
numeric literal; it emits a Dash consuming only the '-' whenever the run
begins with '-' not immediately followed by a digit; and otherwise the whole
run is one Symbol token.  In particular "-3.5" is a Number, "-" alone is a
Dash, and "3.5.2" is a Symbol. -/
theorem C3_number_dash_symbol_amended (c0 : Char) (t0 : List Char)
    (hstop : ∀ c ∈ c0 :: t0,
      isBlank c = false ∧ c ≠ '(' ∧ c ≠ ')' ∧ c ≠ '"')
    (hhash : c0 ≠ '#') :
    (startsNumAt (c0 :: t0) = true → isCompleteNumber (c0 :: t0) = true →
      (NextTok (mkLexer [(c0 :: t0) ++ ['\n']] [])).curTok = DSN_NUMBER ∧
      (NextTok (mkLexer [(c0 :: t0) ++ ['\n']] [])).curText = c0 :: t0) ∧
    (startsNumAt (c0 :: t0) = true → isCompleteNumber (c0 :: t0) = false →
      (NextTok (mkLexer [(c0 :: t0) ++ ['\n']] [])).curTok = DSN_SYMBOL ∧
      (NextTok (mkLexer [(c0 :: t0) ++ ['\n']] [])).curText = c0 :: t0) ∧
    (c0 = '-' → startsNumAt (c0 :: t0) = false →
      (NextTok (mkLexer [(c0 :: t0) ++ ['\n']] [])).curTok = DSN_DASH ∧
      (NextTok (mkLexer [(c0 :: t0) ++ ['\n']] [])).curText = ['-']) ∧
    (c0 ≠ '-' → startsNumAt (c0 :: t0) = false →
      (NextTok (mkLexer [(c0 :: t0) ++ ['\n']] [])).curTok = DSN_SYMBOL ∧
      (NextTok (mkLexer [(c0 :: t0) ++ ['\n']] [])).curText = c0 :: t0) := by
  have hstop2 : ∀ st' : DSNLEXER, st'.stringDelimiter = '"' →
      ∀ c ∈ c0 :: t0, (fun x => !stopsRun st' x) c = true := by
    intro st' hd c hc
    have h := hstop c hc
    simp [stopsRun, hd, h.1, h.2.1, h.2.2.1, h.2.2.2]
  have hpull := nextTokLoop_pullLine (0 + 1)
    { mkLexer [(c0 :: t0) ++ ['\n']] [] with
      prevTok := (mkLexer [(c0 :: t0) ++ ['\n']] []).curTok }
    ⟨[(c0 :: t0) ++ ['\n']], 0, "clipboard", []⟩ [] ((c0 :: t0) ++ ['\n']) []
    rfl rfl (Nat.le_refl 0) (Nat.le_refl 0) (by simp)
    (by simp [List.cons_append, hhash])
  refine ⟨fun hs hcomp => ?_, fun hs hcomp => ?_, fun hd hs => ?_,
    fun hd hs => ?_⟩
  · rw [NextTok_eq,
      show (activeReader (mkLexer
        [(c0 :: t0) ++ ['\n']] [])).pending.length + 1 = 0 + 1 + 1 from rfl,
      hpull]
    exact (nextTokLoop_runCases (0 + 1) _ c0 t0
      (by simp [curRest, curLineOf, activeReader, advReader])
      (hstop2 _ rfl)
      (by simp [curLineOf, activeReader, advReader])).1 hs hcomp
  · rw [NextTok_eq,
      show (activeReader (mkLexer
        [(c0 :: t0) ++ ['\n']] [])).pending.length + 1 = 0 + 1 + 1 from rfl,
      hpull]
    exact (nextTokLoop_runCases (0 + 1) _ c0 t0
      (by simp [curRest, curLineOf, activeReader, advReader])
      (hstop2 _ rfl)
      (by simp [curLineOf, activeReader, advReader])).2.1 hs hcomp
  · rw [NextTok_eq,
      show (activeReader (mkLexer
        [(c0 :: t0) ++ ['\n']] [])).pending.length + 1 = 0 + 1 + 1 from rfl,
      hpull]
    exact (nextTokLoop_runCases (0 + 1) _ c0 t0
      (by simp [curRest, curLineOf, activeReader, advReader])
      (hstop2 _ rfl)
      (by simp [curLineOf, activeReader, advReader])).2.2.1 hd hs
  · rw [NextTok_eq,
      show (activeReader (mkLexer
        [(c0 :: t0) ++ ['\n']] [])).pending.length + 1 = 0 + 1 + 1 from rfl,
      hpull]
    exact (nextTokLoop_runCases (0 + 1) _ c0 t0
      (by simp [curRest, curLineOf, activeReader, advReader])
      (hstop2 _ rfl)
      (by simp [curLineOf, activeReader, advReader])).2.2.2 hd hs

/-- Claim C3 witness: "-3.5" lexes to a Number token, "-" alone to a Dash
token, and "3.5.2" (all number characters but not a syntactically complete
number) to a Symbol token covering the whole run. -/
theorem C3_witness :
    ((NextTok (mkLexer [['-', '3', '.', '5', '\n']] [])).curTok =
        DSN_NUMBER ∧
      (NextTok (mkLexer [['-', '3', '.', '5', '\n']] [])).curText =
        ['-', '3', '.', '5']) ∧
    (NextTok (mkLexer [['-', '\n']] [])).curTok = DSN_DASH ∧
    (NextTok (mkLexer [['3', '.', '5', '.', '2', '\n']] [])).curTok =
      DSN_SYMBOL :=
  ⟨(C3_number_dash_symbol_amended '-' ['3', '.', '5'] (by decide)
      (by decide)).1 (by decide) (by decide),
   ((C3_number_dash_symbol_amended '-' [] (by decide) (by decide)).2.2.1
      rfl (by decide)).1,
   ((C3_number_dash_symbol_amended '3' ['.', '5', '.', '2'] (by decide)
      (by decide)).2.1 (by decide) (by decide)).1⟩

end Dsn
